import Mathlib

/-!
Shallow embedding of the CRUD helper layer in `src/utils/db_utils.py` and the
package interface in `src/utils/__init__.py`, with theorems settling the
frozen claims about it.

Modelling conventions:
* Python runtime values that flow through filters and entity fields are
  modelled by the inductive `Value` (None, strings, integers, lists, tuples,
  sets of values).
* The exception taxonomy `DatabaseError` / `NotFoundError` / `ValidationError`
  is the inductive `DbError`; an arbitrary Python exception is `Exc`, either a
  taxonomy error or a raw exception carrying its message.
* Fallible Python code is embedded as `Except Exc _`.
* A SQLModel entity class is `Entity` (its declared name and field names);
  an entity instance is `Instance` (entity name plus an association list of
  field values, mirroring `model_dump()`).  Python dicts are association
  lists read through `dictGet` (first match); the dict operations used by the
  source (`update`, `del`, iteration via `setattr`) are `dictSet`,
  `dictUpdate`, `dictDelete`.
* The session is `SessionState`: the flushed rows, the instances marked for
  deletion, and the autoincrement counter used when a flush populates a
  missing/None `id` field.
-/

namespace DbUtils

/-- A scalar Python value: `None`, a string or an integer.  These are the
value shapes the source ever compares, stores in entity fields or receives
as filter values; deeper nesting never occurs in this repository. -/
inductive Prim where
  | null : Prim
  | str (s : String) : Prim
  | int (i : Int) : Prim
  deriving DecidableEq, Repr

/-- Python runtime values appearing in filters and entity fields: a scalar,
or a `list` / `tuple` / `set` of scalars (the sequence shapes tested by the
`__in` branch). -/
inductive Value where
  | prim (p : Prim) : Value
  | listV (xs : List Prim) : Value
  | tupleV (xs : List Prim) : Value
  | setV (xs : List Prim) : Value
  deriving DecidableEq, Repr

/-- Shorthand for the Python value `None`. -/
def Value.null : Value := Value.prim Prim.null

/-- Shorthand for a Python string value. -/
def Value.str (s : String) : Value := Value.prim (Prim.str s)

/-- Shorthand for a Python integer value. -/
def Value.int (i : Int) : Value := Value.prim (Prim.int i)

/-- The error taxonomy of `db_utils.py`: `DatabaseError(message, status_code=500)`
with subclasses `NotFoundError` (404) and `ValidationError` (400). -/
inductive DbError where
  | database (message : String) (statusCode : Nat) : DbError
  | notFound (message : String) : DbError
  | validation (message : String) : DbError
  deriving DecidableEq, Repr

/-- The `status_code` attribute set by the constructors of the taxonomy. -/
def DbError.statusCode : DbError → Nat
  | .database _ code => code
  | .notFound _ => 404
  | .validation _ => 400

/-- The `message` attribute of a taxonomy error. -/
def DbError.message : DbError → String
  | .database m _ => m
  | .notFound m => m
  | .validation m => m

/-- An arbitrary Python exception: either an instance of the `DatabaseError`
taxonomy, or any other exception carrying its `str(e)` message. -/
inductive Exc where
  | db (e : DbError) : Exc
  | raw (message : String) : Exc
  deriving DecidableEq, Repr

/-- Embedding of the `db_error` decorator: the wrapped call's outcome is
passed through unchanged on success and for taxonomy errors (`except
DatabaseError: raise`), while any other exception `e` is replaced by
`DatabaseError(str(e))`, whose default status code is 500. -/
def db_error {α : Type} (r : Except Exc α) : Except Exc α :=
  match r with
  | .ok a => .ok a
  | .error (Exc.db e) => .error (Exc.db e)
  | .error (Exc.raw m) => .error (Exc.db (DbError.database m 500))

/-- A SQLModel entity class, as far as the source reflects on it: its
declared name (`model.__name__`, used in error messages) and the names of
its attributes (`hasattr`). -/
structure Entity where
  name : String
  fieldNames : List String
  deriving DecidableEq, Repr

/-- Embedding of `hasattr(model, field)` for the modelled entity classes. -/
def Entity.hasattr (m : Entity) (f : String) : Bool :=
  m.fieldNames.contains f

/-- Splits a character list at the first occurrence of two consecutive
underscores, returning the parts before and after; `none` when there is no
such occurrence.  This mirrors Python's `raw_key.split("__", 1)` together
with the containment test `"__" in raw_key`. -/
def splitDunderAux : List Char → Option (List Char × List Char)
  | [] => none
  | c :: rest =>
    if c = '_' then
      match rest with
      | '_' :: rest2 => some ([], rest2)
      | _ =>
        match splitDunderAux rest with
        | some (a, b) => some (c :: a, b)
        | none => none
    else
      match splitDunderAux rest with
      | some (a, b) => some (c :: a, b)
      | none => none

/-- String version of `splitDunderAux`. -/
def splitDunder (s : String) : Option (String × String) :=
  match splitDunderAux s.toList with
  | some (a, b) => some (⟨a⟩, ⟨b⟩)
  | none => none

/-- The field/operator decomposition of a raw filter key: Python's
`if "__" in raw_key: field, op = raw_key.split("__", 1) else: field, op =
raw_key, "eq"`. -/
def keyParts (raw_key : String) : String × String :=
  match splitDunder raw_key with
  | some (f, op) => (f, op)
  | none => (raw_key, "eq")

/-- Whether a value is a Python `list`, `tuple` or `set`, as tested by
`isinstance(value, (list, tuple, set))` in the `__in` branch. -/
def Value.isSeq : Value → Bool
  | .listV _ => true
  | .tupleV _ => true
  | .setV _ => true
  | _ => false

/-- A WHERE clause produced by `_build_clauses`: the comparison operator, the
column (field name) it constrains, and the comparison value. -/
inductive Clause where
  | eqC (field : String) (v : Value) : Clause
  | neC (field : String) (v : Value) : Clause
  | ltC (field : String) (v : Value) : Clause
  | lteC (field : String) (v : Value) : Clause
  | gtC (field : String) (v : Value) : Clause
  | gteC (field : String) (v : Value) : Clause
  | inC (field : String) (v : Value) : Clause
  | containsC (field : String) (v : Value) : Clause
  | likeC (field : String) (v : Value) : Clause
  deriving DecidableEq, Repr

/-- The body of the loop in `_build_clauses`, for one `raw_key, value` entry:
split the key, check the field exists on the model, then dispatch on the
operator in the order of the source's if/elif chain. -/
def buildClause (model : Entity) (raw_key : String) (value : Value) :
    Except DbError Clause :=
  let field := (keyParts raw_key).1
  let op := (keyParts raw_key).2
  if ¬ model.hasattr field then
    .error (DbError.validation
      ("Field '" ++ field ++ "' not found on " ++ model.name))
  else if op = "eq" then .ok (Clause.eqC field value)
  else if op = "ne" then .ok (Clause.neC field value)
  else if op = "lt" then .ok (Clause.ltC field value)
  else if op = "lte" then .ok (Clause.lteC field value)
  else if op = "gt" then .ok (Clause.gtC field value)
  else if op = "gte" then .ok (Clause.gteC field value)
  else if op = "in" then
    if ¬ value.isSeq then
      .error (DbError.validation
        ("Value for '" ++ raw_key ++ "' must be a list/tuple for __in"))
    else .ok (Clause.inC field value)
  else if op = "contains" then .ok (Clause.containsC field value)
  else if op = "like" then .ok (Clause.likeC field value)
  else .error (DbError.validation ("Unsupported filter operation: " ++ op))

/-- Embedding of `_build_clauses(model, filters)`: one clause per filter
entry, in insertion order, the first failing entry aborting with its
`ValidationError`.  A Python dict is embedded as the association list of its
items in insertion order. -/
def build_clauses (model : Entity) (filters : List (String × Value)) :
    Except DbError (List Clause) :=
  match filters with
  | [] => .ok []
  | (raw_key, value) :: rest => do
    let c ← buildClause model raw_key value
    let cs ← build_clauses model rest
    pure (c :: cs)

/-- A sort term produced by `_order_by`: a column, ascending or descending. -/
inductive OrderTerm where
  | asc (field : String) : OrderTerm
  | desc (field : String) : OrderTerm
  deriving DecidableEq, Repr

/-- Python's `o.startswith("-")`: whether the first character is `-`. -/
def startsWithDash (o : String) : Bool :=
  match o.toList with
  | [] => false
  | c :: _ => c = '-'

/-- Python's slice `o[1:]`: the string with its first character removed. -/
def strTail (o : String) : String :=
  ⟨o.toList.drop 1⟩

/-- The body of the loop in `_order_by` for one list element: a leading `-`
selects descending order on the rest of the name, otherwise ascending; in
both branches a name that is not an attribute of the entity raises
`ValidationError`. -/
def orderTermOf (obj : Entity) (o : String) : Except DbError OrderTerm :=
  if startsWithDash o then
    let fname := strTail o
    if ¬ obj.hasattr fname then
      .error (DbError.validation ("Order field '" ++ fname ++ "' not found"))
    else .ok (OrderTerm.desc fname)
  else
    if ¬ obj.hasattr o then
      .error (DbError.validation ("Order field '" ++ o ++ "' not found"))
    else .ok (OrderTerm.asc o)

/-- Embedding of `_order_by(order_by, obj, query)`: the ordered list of sort
terms the source builds in `order_cols` and applies with
`query.order_by(*order_cols)`. -/
def order_by_terms (order_by : List String) (obj : Entity) :
    Except DbError (List OrderTerm) :=
  match order_by with
  | [] => .ok []
  | o :: rest => do
    let t ← orderTermOf obj o
    let ts ← order_by_terms rest obj
    pure (t :: ts)

/-! Python dicts over string keys, embedded as association lists in insertion
order with unique keys.  `dictGet` is subscription / `in`; `dictSet` is item
assignment (in-place overwrite when the key exists, append otherwise);
`dictUpdate` is `dict.update`; `dictDelete` is `del`. -/

/-- Dict lookup: the value at the first occurrence of the key. -/
def dictGet : List (String × Value) → String → Option Value
  | [], _ => none
  | p :: rest, k => if p.1 = k then some p.2 else dictGet rest k

/-- Dict item assignment `d[k] = v`: overwrite in place when present,
append otherwise. -/
def dictSet (d : List (String × Value)) (k : String) (v : Value) :
    List (String × Value) :=
  if (dictGet d k).isSome then
    d.map (fun p => if p.1 = k then (k, v) else p)
  else d ++ [(k, v)]

/-- Python's `d.update(u)`: assign every item of `u` into `d` in order. -/
def dictUpdate (d u : List (String × Value)) : List (String × Value) :=
  u.foldl (fun acc p => dictSet acc p.1 p.2) d

/-- Python's `del d[k]` (also covering the `if k in d` guard: a no-op when
the key is absent). -/
def dictDelete (d : List (String × Value)) (k : String) :
    List (String × Value) :=
  d.filter (fun p => p.1 ≠ k)

/-- An entity instance: the entity's declared name and its field values in
declaration order, exactly the dict `model_dump()` returns. -/
structure Instance where
  entity : String
  fields : List (String × Value)
  deriving DecidableEq, Repr

/-- Attribute read on an instance. -/
def Instance.getField (i : Instance) (f : String) : Option Value :=
  dictGet i.fields f

/-- Embedding of `setattr(i, f, v)`. -/
def Instance.setField (i : Instance) (f : String) (v : Value) : Instance :=
  { i with fields := dictSet i.fields f v }

/-- The session, as far as the source observes it: the flushed rows of the
backing store, the instances marked for deletion by `session.delete`, and
the autoincrement counter the flush uses to populate a missing or `None`
`id` field.  The primary-key field is modelled as the field named `id`,
which is also the field name the source strips in `update`. -/
structure SessionState where
  rows : List Instance
  deleted : List Instance
  nextId : Nat
  deriving DecidableEq, Repr

/-- Flushing one pending instance: an absent or `None` `id` field is
populated from the autoincrement counter; any other `id` is kept. -/
def flushInst (nextId : Nat) (obj : Instance) : Nat × Instance :=
  match obj.getField "id" with
  | none => (nextId + 1, obj.setField "id" (Value.int nextId))
  | some v =>
    if v = Value.null then (nextId + 1, obj.setField "id" (Value.int nextId))
    else (nextId, obj)

/-- Embedding of `session.get(obj, id)`: the direct primary-key lookup, the
first row of this entity whose `id` field holds the given key (`None` when
there is no such row). -/
def sessionGet (s : SessionState) (obj : Entity) (id : Value) :
    Option Instance :=
  s.rows.find? (fun r => r.entity = obj.name && r.getField "id" == some id)

/-- The argument of `save`: Python's `new_obj` is either a single instance
or a list of instances (`isinstance(new_obj, list)`). -/
inductive SaveArg where
  | single (a : Instance) : SaveArg
  | list (xs : List Instance) : SaveArg
  deriving DecidableEq, Repr

/-- Whether a `save` result has list shape. -/
def SaveArg.isList : SaveArg → Bool
  | .single _ => false
  | .list _ => true

/-- The flush/refresh loop of `save`: the new autoincrement counter and the
flushed (id-populated) forms of the registered instances, in order. -/
def saveFlush (nextId : Nat) (objs : List Instance) :
    Nat × List Instance :=
  objs.foldl
    (fun (acc : Nat × List Instance) obj =>
      let ni := flushInst acc.1 obj
      (ni.1, acc.2 ++ [ni.2]))
    (nextId, ([] : List Instance))

/-- Embedding of the body of `save(session, new_obj)` (before the `db_error`
wrapper).  A single instance is wrapped into a one-element list; the list is
registered with `session.add_all` and the loop flushes and refreshes each
element, so every element is persisted with its generated `id` populated.
The final statement `return new_obj if len(new_obj) > 1 else new_obj[0]`
returns the list only when it has more than one element; on a one-element
list it returns the element, and on an empty list the subscript `new_obj[0]`
raises `IndexError` (the loop never ran, so the session is unchanged). -/
def save_inner (s : SessionState) (new_obj : SaveArg) :
    Except Exc (SessionState × SaveArg) :=
  let objs := match new_obj with
    | SaveArg.single a => [a]
    | SaveArg.list xs => xs
  match objs with
  | [] => .error (Exc.raw "list index out of range")
  | _ :: _ =>
    let flushedAcc := saveFlush s.nextId objs
    let flushed := flushedAcc.2
    let s2 : SessionState :=
      { s with rows := s.rows ++ flushed, nextId := flushedAcc.1 }
    if flushed.length > 1 then .ok (s2, SaveArg.list flushed)
    else
      match flushed with
      | [] => .error (Exc.raw "list index out of range")
      | x :: _ => .ok (s2, SaveArg.single x)

/-- The exported `save`, wrapped by the `db_error` decorator. -/
def save (s : SessionState) (new_obj : SaveArg) :
    Except Exc (SessionState × SaveArg) :=
  db_error (save_inner s new_obj)

/-! Execution of the built statement against the store.  The SQL comparison
and pattern semantics below cover the value shapes this repository stores
(scalars; SQL three-valued NULL logic is not modelled — comparisons against
a missing value are simply false). -/

/-- Less-than on scalar values, as the backing engine compares them. -/
def Prim.ltB : Prim → Prim → Bool
  | .int a, .int b => a < b
  | .str a, .str b => a < b
  | _, _ => false

/-- Less-or-equal on scalar values. -/
def Prim.leB : Prim → Prim → Bool
  | .int a, .int b => a ≤ b
  | .str a, .str b => a ≤ b
  | _, _ => false

/-- Whether `pat` occurs as a contiguous substring of `hay`. -/
def strContainsSub (hay pat : String) : Bool :=
  hay.toList.tails.any (fun t => pat.toList.isPrefixOf t)

/-- SQL `LIKE` matching: `%` matches any sequence, `_` any one character,
anything else itself. -/
def likeMatch (p s : List Char) : Bool :=
  match p, s with
  | [], [] => true
  | [], _ :: _ => false
  | '%' :: ps, s =>
    likeMatch ps s ||
      (match s with
       | [] => false
       | _ :: s2 => likeMatch ('%' :: ps) s2)
  | '_' :: ps, _ :: s2 => likeMatch ps s2
  | '_' :: _, [] => false
  | c :: ps, c2 :: s2 => c = c2 && likeMatch ps s2
  | _ :: _, [] => false
termination_by (s.length, p.length)

/-- The scalars of a sequence value (`in_` iterates the given collection). -/
def Value.seqElems : Value → List Prim
  | .listV xs => xs
  | .tupleV xs => xs
  | .setV xs => xs
  | .prim _ => []

/-- Evaluation of one WHERE clause against a row, as the backing engine
would resolve the comparison the clause embeds. -/
def Clause.eval (c : Clause) (r : Instance) : Bool :=
  match c with
  | .eqC f v => r.getField f == some v
  | .neC f v => !(r.getField f == some v)
  | .ltC f v =>
    match r.getField f, v with
    | some (Value.prim a), Value.prim b => Prim.ltB a b
    | _, _ => false
  | .lteC f v =>
    match r.getField f, v with
    | some (Value.prim a), Value.prim b => Prim.leB a b
    | _, _ => false
  | .gtC f v =>
    match r.getField f, v with
    | some (Value.prim a), Value.prim b => Prim.ltB b a
    | _, _ => false
  | .gteC f v =>
    match r.getField f, v with
    | some (Value.prim a), Value.prim b => Prim.leB b a
    | _, _ => false
  | .inC f v => v.seqElems.any (fun x => r.getField f == some (Value.prim x))
  | .containsC f v =>
    match r.getField f, v with
    | some (Value.prim (Prim.str a)), Value.prim (Prim.str b) =>
      strContainsSub a b
    | _, _ => false
  | .likeC f v =>
    match r.getField f, v with
    | some (Value.prim (Prim.str a)), Value.prim (Prim.str b) =>
      likeMatch b.toList a.toList
    | _, _ => false

/-- Ascending comparison of two rows on one column. -/
def colCmp (f : String) (a b : Instance) : Ordering :=
  match a.getField f, b.getField f with
  | some (Value.prim x), some (Value.prim y) =>
    if Prim.ltB x y then Ordering.lt
    else if Prim.ltB y x then Ordering.gt
    else Ordering.eq
  | _, _ => Ordering.eq

/-- Comparison of two rows under one sort term. -/
def OrderTerm.cmp (t : OrderTerm) (a b : Instance) : Ordering :=
  match t with
  | .asc f => colCmp f a b
  | .desc f => colCmp f b a

/-- Lexicographic row comparison over a term list: the first term is the
primary sort key. -/
def termsLe (ts : List OrderTerm) (a b : Instance) : Bool :=
  match ts with
  | [] => true
  | t :: rest =>
    match t.cmp a b with
    | Ordering.lt => true
    | Ordering.gt => false
    | Ordering.eq => termsLe rest a b

/-- Stable insertion of a row into a sorted list. -/
def sortedInsert (le : Instance → Instance → Bool) (x : Instance) :
    List Instance → List Instance
  | [] => [x]
  | y :: ys => if le x y then x :: y :: ys else y :: sortedInsert le x ys

/-- Stable sort of the result rows under the sort terms, as the engine
orders the result of `query.order_by(*order_cols)`. -/
def sortByTerms (ts : List OrderTerm) (xs : List Instance) : List Instance :=
  xs.foldr (sortedInsert (termsLe ts)) []

/-- The dynamic result of `get`: the full result list (`.all()`), or a
single row or nothing (`.one_or_none()`). -/
inductive GetRes where
  | all (xs : List Instance) : GetRes
  | oneOrNone (x : Option Instance) : GetRes
  deriving DecidableEq, Repr

/-- Python truthiness of a `get` result (`if not db_result`): an empty list
and `None` are falsy. -/
def GetRes.isTruthy : GetRes → Bool
  | .all xs => !xs.isEmpty
  | .oneOrNone o => o.isSome

/-- The instance a truthy one-or-none result carries. -/
def GetRes.asInstance : GetRes → Option Instance
  | .oneOrNone o => o
  | .all _ => none

/-- Embedding of the body of `get(session, obj, filters, order_by,
one_or_none)` for a single entity selection.  (The `isinstance(obj, list)`
branch selecting projected columns is orthogonal to every claim and is not
modelled.)  `select(obj)` starts from all rows of the entity;  a non-empty
filters dict contributes the clauses of `_build_clauses` (whose
`ValidationError` propagates), conjoined by `stmt.where`;  a non-empty
order list sorts through `_order_by`;  finally `one_or_none` selects between
`.one_or_none()` — which raises the engine's multiple-rows error on two or
more rows — and `.all()`. -/
def get_inner (s : SessionState) (obj : Entity)
    (filters : Option (List (String × Value)))
    (order_by : Option (List String)) (one_or_none : Bool) :
    Except Exc GetRes := do
  let base := s.rows.filter (fun r => r.entity = obj.name)
  let rows ←
    match filters with
    | some fs =>
      if !fs.isEmpty then
        match build_clauses obj fs with
        | .error e => throw (Exc.db e)
        | .ok clauses =>
          if !clauses.isEmpty then
            pure (base.filter (fun r => clauses.all (fun c => c.eval r)))
          else pure base
      else pure base
    | none => pure base
  let rows2 ←
    match order_by with
    | some ob =>
      if !ob.isEmpty then
        match order_by_terms ob obj with
        | .error e => throw (Exc.db e)
        | .ok ts => pure (sortByTerms ts rows)
      else pure rows
    | none => pure rows
  if one_or_none then
    match rows2 with
    | [] => pure (GetRes.oneOrNone none)
    | [x] => pure (GetRes.oneOrNone (some x))
    | _ :: _ :: _ =>
      throw (Exc.raw "Multiple rows were found when one or none was required")
  else pure (GetRes.all rows2)

/-- The exported `get`, wrapped by `db_error`. -/
def get (s : SessionState) (obj : Entity)
    (filters : Option (List (String × Value)))
    (order_by : Option (List String)) (one_or_none : Bool) :
    Except Exc GetRes :=
  db_error (get_inner s obj filters order_by one_or_none)

/-- Embedding of `get_by_id(session, obj, id)`: `session.get`, which never
raises — absence is returned as `None`.  The `db_error` wrapper is the
identity here since the body cannot raise. -/
def get_by_id (s : SessionState) (obj : Entity) (id : Value) :
    Except Exc (Option Instance) :=
  db_error (.ok (sessionGet s obj id))

/-- Embedding of the body of `delete(session, obj, id)`: load by primary
key, raise `NotFoundError` when absent, otherwise mark the instance for
deletion (`session.delete`) and return `True`. -/
def delete_inner (s : SessionState) (obj : Entity) (id : Value) :
    Except Exc (SessionState × Bool) :=
  match sessionGet s obj id with
  | none => .error (Exc.db (DbError.notFound (obj.name ++ " not found")))
  | some db_obj =>
    let s1 := { s with rows := s.rows.filter (fun r => r ≠ db_obj) }
    let s2 := { s1 with deleted := s1.deleted ++ [db_obj] }
    .ok (s2, true)

/-- The exported `delete`, wrapped by `db_error`. -/
def delete (s : SessionState) (obj : Entity) (id : Value) :
    Except Exc (SessionState × Bool) :=
  db_error (delete_inner s obj id)

/-- The `vals` argument of `update`: a Pydantic/SQLModel payload whose
`model_dump(exclude_unset=True)` yields exactly the explicitly-set fields,
in order, with unique keys. -/
structure Payload where
  setFields : List (String × Value)
  deriving DecidableEq, Repr

/-- Embedding of the body of `update(session, obj, id, vals)`: load by
primary key (raise `NotFoundError` when absent); take the full dump of the
stored instance; overwrite it with the explicitly-set payload fields
(`db_result_dict.update(vals.model_dump(exclude_unset=True))`); delete the
`id` key from the merged dict; write every merged entry back with `setattr`;
re-register and refresh the instance, whose merged state the store now
holds. -/
def update_inner (s : SessionState) (obj : Entity) (id : Value)
    (vals : Payload) : Except Exc (SessionState × Instance) :=
  match sessionGet s obj id with
  | none => .error (Exc.db (DbError.notFound (obj.name ++ " not found")))
  | some db_result =>
    let db_result_dict := db_result.fields
    let merged := dictDelete (dictUpdate db_result_dict vals.setFields) "id"
    let new_result := merged.foldl
      (fun (acc : Instance) p => acc.setField p.1 p.2) db_result
    let s2 : SessionState :=
      { s with rows := s.rows.map (fun r => if r = db_result then new_result else r) }
    .ok (s2, new_result)

/-- The exported `update`, wrapped by `db_error`. -/
def update (s : SessionState) (obj : Entity) (id : Value) (vals : Payload) :
    Except Exc (SessionState × Instance) :=
  db_error (update_inner s obj id vals)

/-- Whether a filter value is `None` or the empty string — the membership
test `val in [None, ""]` guarding `get_or_create` and `get_or_convert`. -/
def isNoneOrEmpty (v : Value) : Bool :=
  v == Value.null || v == Value.str ""

/-- Construction `obj(**vals)` of a fresh transient instance of the entity
from the keyword arguments `vals`. -/
def Entity.mkInst (obj : Entity) (vals : List (String × Value)) : Instance :=
  { entity := obj.name, fields := vals }

/-- The lookup step shared verbatim by `get_or_create` and `get_or_convert`:
when the filters dict has an `id` key, `get_by_id` with that value, else
`get` with the filters and `one_or_none=True`. -/
def lookupByFilters (s : SessionState) (obj : Entity)
    (filters : List (String × Value)) : Except Exc GetRes :=
  match dictGet filters "id" with
  | some idv =>
    match get_by_id s obj idv with
    | .ok o => .ok (GetRes.oneOrNone o)
    | .error e => .error e
  | none => get s obj (some filters) none true

/-- Embedding of `get_or_create(session, obj, vals, filters)`: any `None` or
empty-string filter value short-circuits to `None` before any session
access; otherwise the shared lookup runs, a truthy result is returned as
is, and a falsy one causes `save(session, obj(**vals))` of a fresh
instance, whose saved (refreshed) form is returned. -/
def get_or_create (s : SessionState) (obj : Entity)
    (vals : List (String × Value)) (filters : List (String × Value)) :
    Except Exc (SessionState × Option Instance) :=
  if filters.any (fun p => isNoneOrEmpty p.2) then
    .ok (s, none)
  else
    match lookupByFilters s obj filters with
    | .error e => .error e
    | .ok db_result =>
      if !db_result.isTruthy then
        match save s (SaveArg.single (obj.mkInst vals)) with
        | .ok (s2, r) =>
          .ok (s2, match r with
            | SaveArg.single x => some x
            | SaveArg.list xs => xs.head?)
        | .error e => .error e
      else .ok (s, db_result.asInstance)

/-- Embedding of `get_or_convert(session, obj, vals, filters)`: the same
guard and lookup as `get_or_create`, but a falsy lookup result is answered
with the bare transient `obj(**vals)` — nothing is registered with the
session. -/
def get_or_convert (s : SessionState) (obj : Entity)
    (vals : List (String × Value)) (filters : List (String × Value)) :
    Except Exc (SessionState × Option Instance) :=
  if filters.any (fun p => isNoneOrEmpty p.2) then
    .ok (s, none)
  else
    match lookupByFilters s obj filters with
    | .error e => .error e
    | .ok db_result =>
      if !db_result.isTruthy then
        .ok (s, some (obj.mkInst vals))
      else .ok (s, db_result.asInstance)

/-! The `db_commit` decorator and its helper `_extract_session`.  A wrapped
call is described by its argument vectors and by the outcome of the wrapped
function; sessions are identified by numeric handles, and the commit /
rollback operations a run performs are recorded as an event trace. -/

/-- A positional or keyword argument of a wrapped call: a `Session` instance
(identified by a handle) or any other object. -/
inductive Arg where
  | sess (sid : Nat) : Arg
  | other (v : Value) : Arg
  deriving DecidableEq, Repr

/-- The session handle of an argument when it is a `Session` instance. -/
def Arg.sessOf : Arg → Option Nat
  | .sess i => some i
  | .other _ => none

/-- Embedding of `_extract_session(args, kwargs)`: the `session` keyword
when it is bound to a `Session`, else the `db` keyword when it is bound to
a `Session`, else the first positional argument that is a `Session`, else
`None`.  `kwargs` is the keyword dict as an association list with unique
keys. -/
def extract_session (args : List Arg) (kwargs : List (String × Arg)) :
    Option Nat :=
  match kwargs.lookup "session" with
  | some (Arg.sess i) => some i
  | _ =>
    match kwargs.lookup "db" with
    | some (Arg.sess i) => some i
    | _ => args.findSome? Arg.sessOf

/-- A session operation performed by the `db_commit` wrapper. -/
inductive SessionEvent where
  | commit (sid : Nat) : SessionEvent
  | rollbackAttempt (sid : Nat) : SessionEvent
  deriving DecidableEq, Repr

/-- The environment of one wrapped call: whether the session's `commit()`
and `rollback()` themselves raise when invoked. -/
structure CommitEnv where
  commitExc : Option Exc
  rollbackExc : Option Exc
  deriving DecidableEq, Repr

/-- Embedding of the `db_commit` decorator around one call.  `f` is the
outcome of `func(*args, **kwargs)`.  The session is located by
`_extract_session`; with no session the outcome passes through untouched.
On a normal return the session is committed — a failing commit falls into
the `except` branch, which attempts a rollback and re-raises.  On an
exception from the wrapped call the rollback is attempted inside its own
`try`/`except Exception: pass` (so a failing rollback changes nothing) and
the bare `raise` re-raises the original exception.  The returned trace
lists the commit/rollback calls in order. -/
def db_commit {α : Type} (env : CommitEnv) (args : List Arg)
    (kwargs : List (String × Arg)) (f : Except Exc α) :
    List SessionEvent × Except Exc α :=
  match extract_session args kwargs with
  | none => ([], f)
  | some sid =>
    match f with
    | .ok r =>
      match env.commitExc with
      | none => ([SessionEvent.commit sid], .ok r)
      | some e =>
        ([SessionEvent.commit sid, SessionEvent.rollbackAttempt sid],
         .error e)
    | .error e => ([SessionEvent.rollbackAttempt sid], .error e)

/-! The package interface `src/utils/__init__.py`.  A `from .module import
(names)` statement succeeds exactly when every requested name is an
attribute of the module; the first missing name raises `ImportError` and
aborts the whole package import. -/

/-- The top-level names defined by `src/utils/db.py`. -/
def db_module_names : List String :=
  ["DATABASE_URL", "get_engine", "get_session", "create_db_and_tables",
   "lifespan"]

/-- The top-level names defined by `src/utils/db_utils.py`. -/
def db_utils_module_names : List String :=
  ["DatabaseError", "NotFoundError", "ValidationError", "_build_clauses",
   "_order_by", "db_error", "_extract_session", "db_commit", "get",
   "get_by_id", "save", "delete", "update", "get_or_create",
   "get_or_convert"]

/-- The names the package interface imports from `.db_utils` under its
`# CRUD operations` heading. -/
def init_crud_import_names : List String :=
  ["get", "get_by_id", "save", "save_all", "delete", "update",
   "get_or_create", "get_or_convert"]

/-- One `from module import (names)` statement: `ImportError` on the first
name the module does not define. -/
def importFrom (module : List String) (names : List String) :
    Except String Unit :=
  match names.find? (fun n => !module.contains n) with
  | some n => .error ("cannot import name " ++ n)
  | none => .ok ()

/-- The import statements of `src/utils/__init__.py`, in source order: the
connection utilities from `.db`, then the exceptions, the decorators and
the CRUD operations from `.db_utils`.  The statements run in order and the
first failure aborts the package import. -/
def import_utils_package : Except String Unit := do
  importFrom db_module_names
    ["DATABASE_URL", "get_engine", "get_session", "create_db_and_tables",
     "lifespan"]
  importFrom db_utils_module_names
    ["DatabaseError", "NotFoundError", "ValidationError"]
  importFrom db_utils_module_names ["db_error", "db_commit"]
  importFrom db_utils_module_names init_crud_import_names

/-! Theorems settling the claims. -/

/-- An entity type used by concrete witnesses, from the spec's scenario. -/
def Plant : Entity :=
  { name := "Plant", fieldNames := ["id", "name", "species"] }

/-- C7: for every `db_error`-wrapped operation, a raised `DatabaseError` (or
subtype) propagates unchanged, any other exception is replaced by a generic
`DatabaseError` with status 500 carrying the original message, normal
returns pass through, and every error surfacing from the wrapper is a
taxonomy error. -/
theorem db_error_normalizes (α : Type) (e : DbError) (m : String)
    (r : Except Exc α) (a : α) :
    db_error (Except.error (Exc.db e) : Except Exc α) =
      Except.error (Exc.db e) ∧
    db_error (Except.error (Exc.raw m) : Except Exc α) =
      Except.error (Exc.db (DbError.database m 500)) ∧
    (DbError.database m 500).statusCode = 500 ∧
    (DbError.database m 500).message = m ∧
    db_error (Except.ok a : Except Exc α) = Except.ok a ∧
    (∀ e2, db_error r = Except.error e2 → ∃ d, e2 = Exc.db d) := by
  refine ⟨rfl, rfl, rfl, rfl, rfl, ?_⟩
  intro e2 h
  match r with
  | .ok a => simp [db_error] at h
  | .error (Exc.db d) =>
    simp only [db_error] at h
    exact ⟨d, (Except.error.inj h).symm⟩
  | .error (Exc.raw m2) =>
    simp only [db_error] at h
    exact ⟨DbError.database m2 500, (Except.error.inj h).symm⟩

/-- Witness for C7 at concrete inputs. -/
theorem db_error_normalizes_witness :
    db_error (Except.error (Exc.db (DbError.notFound "Plant not found")) :
        Except Exc Unit) =
      Except.error (Exc.db (DbError.notFound "Plant not found")) ∧
    db_error (Except.error (Exc.raw "engine boom") : Except Exc Unit) =
      Except.error (Exc.db (DbError.database "engine boom" 500)) ∧
    (∃ d, Exc.db (DbError.database "engine boom" 500) = Exc.db d) := by
  have h := db_error_normalizes Unit (DbError.notFound "Plant not found")
    "engine boom" (Except.error (Exc.raw "engine boom")) ()
  exact ⟨h.1, h.2.1, h.2.2.2.2.2 _ h.2.1⟩

/-- C10: the package interface names `save_all` in its CRUD import list,
`db_utils` defines no `save_all`, and so importing the package always fails
with an `ImportError` before any exported operation becomes reachable. -/
theorem package_import_always_fails :
    import_utils_package = Except.error "cannot import name save_all" ∧
    init_crud_import_names.contains "save_all" = true ∧
    db_utils_module_names.contains "save_all" = false := by
  refine ⟨rfl, by decide, by decide⟩

/-- C5: for every filters mapping in which at least one value is `None` or
empty, `get_or_create` returns `None` with the session unchanged, and a
repeated call on the session it returns gives `None` again. -/
theorem get_or_create_blank_guard (s : SessionState) (obj : Entity)
    (vals filters : List (String × Value))
    (h : filters.any (fun p => isNoneOrEmpty p.2) = true) :
    get_or_create s obj vals filters = Except.ok (s, none) ∧
    (∀ s2 : SessionState,
      get_or_create s obj vals filters =
        Except.ok (s2, (none : Option Instance)) →
      get_or_create s2 obj vals filters = Except.ok (s2, none)) := by
  constructor
  · simp [get_or_create, h]
  · intro s2 _
    simp [get_or_create, h]

/-- Witness for C5: a blank `name` filter on a populated session. -/
theorem get_or_create_blank_guard_witness :
    get_or_create { rows := [], deleted := [], nextId := 1 } Plant
        [("name", Value.str "Fern")] [("name", Value.str "")] =
      Except.ok ({ rows := [], deleted := [], nextId := 1 }, none) := by
  exact (get_or_create_blank_guard _ Plant _ _ (by decide)).1

/-- C2: the `db_commit` wrapper finds the session by checking the `session`
keyword, then the `db` keyword, then the positional arguments in order;
with a session found it performs exactly one commit when the wrapped call
returns normally, and on an exception it performs exactly one rollback
attempt, swallows any rollback failure (the outcome is the same whatever
`rollback()` does) and re-raises the original exception unchanged. -/
theorem db_commit_spec (α : Type) (env : CommitEnv) (args : List Arg)
    (kwargs : List (String × Arg)) (sid : Nat) :
    (∀ i, kwargs.lookup "session" = some (Arg.sess i) →
      extract_session args kwargs = some i) ∧
    (∀ i, (∀ j, kwargs.lookup "session" ≠ some (Arg.sess j)) →
      kwargs.lookup "db" = some (Arg.sess i) →
      extract_session args kwargs = some i) ∧
    ((∀ j, kwargs.lookup "session" ≠ some (Arg.sess j)) →
      (∀ j, kwargs.lookup "db" ≠ some (Arg.sess j)) →
      extract_session args kwargs = args.findSome? Arg.sessOf) ∧
    (∀ r : α, extract_session args kwargs = some sid →
      env.commitExc = none →
      db_commit env args kwargs (Except.ok r) =
        ([SessionEvent.commit sid], Except.ok r)) ∧
    (∀ r : α, extract_session args kwargs = some sid →
      (db_commit env args kwargs (Except.ok r)).1.count
        (SessionEvent.commit sid) = 1) ∧
    (∀ e : Exc, extract_session args kwargs = some sid →
      db_commit env args kwargs (Except.error e : Except Exc α) =
        ([SessionEvent.rollbackAttempt sid], Except.error e)) := by
  refine ⟨?_, ?_, ?_, ?_, ?_, ?_⟩
  · intro i h
    simp [extract_session, h]
  · intro i hs hdb
    cases hl : kwargs.lookup "session" with
    | none => simp [extract_session, hl, hdb]
    | some a =>
      cases a with
      | sess j => exact absurd hl (hs j)
      | other v => simp [extract_session, hl, hdb]
  · intro hs hdb
    cases hl : kwargs.lookup "session" with
    | none =>
      cases hl2 : kwargs.lookup "db" with
      | none => simp [extract_session, hl, hl2]
      | some a =>
        cases a with
        | sess j => exact absurd hl2 (hdb j)
        | other v => simp [extract_session, hl, hl2]
    | some a =>
      cases a with
      | sess j => exact absurd hl (hs j)
      | other v =>
        cases hl2 : kwargs.lookup "db" with
        | none => simp [extract_session, hl, hl2]
        | some a2 =>
          cases a2 with
          | sess j => exact absurd hl2 (hdb j)
          | other v2 => simp [extract_session, hl, hl2]
  · intro r hsid hce
    simp [db_commit, hsid, hce]
  · intro r hsid
    cases hce : env.commitExc with
    | none => simp [db_commit, hsid, hce]
    | some e => simp [db_commit, hsid, hce]
  · intro e hsid
    simp [db_commit, hsid]

/-- Witness for C2: a `db`-keyword session among mixed arguments, with a
failing `rollback()`; the wrapper still reports the original error. -/
theorem db_commit_spec_witness :
    extract_session [Arg.other (Value.int 3), Arg.sess 5]
        [("db", Arg.sess 9)] = some 9 ∧
    db_commit { commitExc := none, rollbackExc := some (Exc.raw "rb boom") }
        [Arg.other (Value.int 3), Arg.sess 5] [("db", Arg.sess 9)]
        (Except.ok (0 : Nat)) =
      ([SessionEvent.commit 9], Except.ok 0) ∧
    db_commit { commitExc := none, rollbackExc := some (Exc.raw "rb boom") }
        [Arg.other (Value.int 3), Arg.sess 5] [("db", Arg.sess 9)]
        (Except.error (Exc.raw "orig boom") : Except Exc Nat) =
      ([SessionEvent.rollbackAttempt 9], Except.error (Exc.raw "orig boom")) := by
  have h := db_commit_spec Nat
    { commitExc := none, rollbackExc := some (Exc.raw "rb boom") }
    [Arg.other (Value.int 3), Arg.sess 5] [("db", Arg.sess 9)] 9
  have hfound : extract_session [Arg.other (Value.int 3), Arg.sess 5]
      [("db", Arg.sess 9)] = some 9 :=
    h.2.1 9 (fun j hj => Option.noConfusion hj) (by decide)
  exact ⟨hfound, h.2.2.2.1 0 hfound rfl, h.2.2.2.2.2 _ hfound⟩

/-- The operator suffixes the filter-clause builder accepts. -/
def supportedOps : List String :=
  ["eq", "ne", "lt", "lte", "gt", "gte", "in", "contains", "like"]

/-- On success, `build_clauses` pairs the filter entries with the produced
clauses one to one, in insertion order. -/
theorem build_clauses_ok_forall (model : Entity) :
    ∀ filters cs, build_clauses model filters = Except.ok cs →
      List.Forall₂ (fun (p : String × Value) c =>
        buildClause model p.1 p.2 = Except.ok c) filters cs := by
  intro filters
  induction filters with
  | nil =>
    intro cs h
    simp only [build_clauses] at h
    cases h
    exact List.Forall₂.nil
  | cons p rest ih =>
    intro cs h
    obtain ⟨k, v⟩ := p
    simp only [build_clauses] at h
    cases hbc : buildClause model k v with
    | error e => rw [hbc] at h; cases h
    | ok c =>
      rw [hbc] at h
      cases hrest : build_clauses model rest with
      | error e => rw [hrest] at h; cases h
      | ok cs2 =>
        rw [hrest] at h
        cases h
        exact List.Forall₂.cons hbc (ih cs2 hrest)

/-- A failing entry anywhere in the filters makes `build_clauses` fail. -/
theorem build_clauses_error_lift (model : Entity) :
    ∀ (filters : List (String × Value)) k v e, (k, v) ∈ filters →
      buildClause model k v = Except.error e →
      ∃ e2, build_clauses model filters = Except.error e2 := by
  intro filters
  induction filters with
  | nil => intro k v e hmem _; cases hmem
  | cons p rest ih =>
    intro k v e hmem hbc
    obtain ⟨k0, v0⟩ := p
    cases hbc0 : buildClause model k0 v0 with
    | error e0 =>
      refine ⟨e0, ?_⟩
      simp only [build_clauses, hbc0]
      rfl
    | ok c0 =>
      rcases List.mem_cons.mp hmem with heq | hmemr
      · cases heq
        rw [hbc0] at hbc
        cases hbc
      · obtain ⟨e2, h2⟩ := ih k v e hmemr hbc
        refine ⟨e2, ?_⟩
        simp only [build_clauses, hbc0, h2]
        rfl

/-- C4: the filter-clause builder treats a key without a double underscore
as operator `eq`; an entry whose field is not an attribute of the entity
fails with the `ValidationError` naming the field and the entity; an entry
whose operator is outside the supported set fails with the unsupported
filter operation `ValidationError`; an `in` entry whose value is not a
list/tuple/set fails with a `ValidationError`; and on success one clause is
produced per entry, in the mapping's insertion order. -/
theorem build_clauses_spec (model : Entity)
    (filters : List (String × Value)) :
    (∀ k v, splitDunder k = none → model.hasattr k = true →
      buildClause model k v = Except.ok (Clause.eqC k v)) ∧
    (∀ k v, model.hasattr (keyParts k).1 = false →
      buildClause model k v = Except.error (DbError.validation
        ("Field '" ++ (keyParts k).1 ++ "' not found on " ++ model.name))) ∧
    (∀ k v, model.hasattr (keyParts k).1 = true →
      (keyParts k).2 ∉ supportedOps →
      buildClause model k v = Except.error (DbError.validation
        ("Unsupported filter operation: " ++ (keyParts k).2))) ∧
    (∀ k v, model.hasattr (keyParts k).1 = true → (keyParts k).2 = "in" →
      v.isSeq = false →
      buildClause model k v = Except.error (DbError.validation
        ("Value for '" ++ k ++ "' must be a list/tuple for __in"))) ∧
    (∀ cs, build_clauses model filters = Except.ok cs →
      cs.length = filters.length ∧
      List.Forall₂ (fun (p : String × Value) c =>
        buildClause model p.1 p.2 = Except.ok c) filters cs) ∧
    (∀ k v e, (k, v) ∈ filters → buildClause model k v = Except.error e →
      ∃ e2, build_clauses model filters = Except.error e2) := by
  refine ⟨?_, ?_, ?_, ?_, ?_, ?_⟩
  · intro k v hsp hattr
    have hkp : keyParts k = (k, "eq") := by simp [keyParts, hsp]
    simp [buildClause, hkp, hattr]
  · intro k v hattr
    simp [buildClause, hattr]
  · intro k v hattr hop
    simp only [supportedOps, List.mem_cons, List.mem_singleton, not_or] at hop
    obtain ⟨h1, h2, h3, h4, h5, h6, h7, h8, h9⟩ := hop
    simp [buildClause, hattr, h1, h2, h3, h4, h5, h6, h7, h8, h9]
  · intro k v hattr hop hseq
    simp [buildClause, hattr, hop, hseq]
  · intro cs h
    have hf := build_clauses_ok_forall model filters cs h
    exact ⟨hf.length_eq.symm, hf⟩
  · exact fun k v e hmem hbc =>
      build_clauses_error_lift model filters k v e hmem hbc

/-- Witness for C4 on the `Plant` entity: a bare key means `eq`; a missing
field, an unknown operator and a scalar `in` value each raise the stated
`ValidationError`; and a two-entry mapping yields two clauses in order. -/
theorem build_clauses_spec_witness :
    buildClause Plant "name" (Value.str "Fern") =
      Except.ok (Clause.eqC "name" (Value.str "Fern")) ∧
    buildClause Plant "height__gt" (Value.int 3) =
      Except.error (DbError.validation
        "Field 'height' not found on Plant") ∧
    buildClause Plant "name__startswith" (Value.str "F") =
      Except.error (DbError.validation
        "Unsupported filter operation: startswith") ∧
    buildClause Plant "id__in" (Value.int 3) =
      Except.error (DbError.validation
        "Value for 'id__in' must be a list/tuple for __in") ∧
    (build_clauses Plant
        [("name", Value.str "Fern"), ("id__in", Value.listV [Prim.int 1])] =
      Except.ok [Clause.eqC "name" (Value.str "Fern"),
        Clause.inC "id" (Value.listV [Prim.int 1])]) := by
  have h := build_clauses_spec Plant
    [("name", Value.str "Fern"), ("id__in", Value.listV [Prim.int 1])]
  refine ⟨h.1 "name" (Value.str "Fern") (by decide) (by decide),
    ?_, ?_, ?_, by rfl⟩
  · have := h.2.1 "height__gt" (Value.int 3) (by decide)
    simpa using this
  · have := h.2.2.1 "name__startswith" (Value.str "F") (by decide) (by decide)
    simpa using this
  · have := h.2.2.2.1 "id__in" (Value.int 3) (by decide) (by decide) (by decide)
    simpa using this

/-- On success, `_order_by` pairs the given names with the produced sort
terms one to one, in the given sequence. -/
theorem order_terms_ok_forall (obj : Entity) :
    ∀ names ts, order_by_terms names obj = Except.ok ts →
      List.Forall₂ (fun o t => orderTermOf obj o = Except.ok t) names ts := by
  intro names
  induction names with
  | nil =>
    intro ts h
    simp only [order_by_terms] at h
    cases h
    exact List.Forall₂.nil
  | cons o rest ih =>
    intro ts h
    simp only [order_by_terms] at h
    cases hot : orderTermOf obj o with
    | error e => rw [hot] at h; cases h
    | ok t =>
      rw [hot] at h
      cases hrest : order_by_terms rest obj with
      | error e => rw [hrest] at h; cases h
      | ok ts2 =>
        rw [hrest] at h
        cases h
        exact List.Forall₂.cons hot (ih ts2 hrest)

/-- C8: the ordering builder produces one sort term per name in the given
sequence, descending exactly when the name has a leading `-` (the term
constrains the name with that prefix stripped), and a name whose stripped
form is not a field of the entity fails with the `ValidationError` saying
the order field was not found. -/
theorem order_by_spec (obj : Entity) (names : List String) :
    (∀ o, startsWithDash o = true → obj.hasattr (strTail o) = true →
      orderTermOf obj o = Except.ok (OrderTerm.desc (strTail o))) ∧
    (∀ o, startsWithDash o = false → obj.hasattr o = true →
      orderTermOf obj o = Except.ok (OrderTerm.asc o)) ∧
    (∀ o, startsWithDash o = true → obj.hasattr (strTail o) = false →
      orderTermOf obj o = Except.error (DbError.validation
        ("Order field '" ++ strTail o ++ "' not found"))) ∧
    (∀ o, startsWithDash o = false → obj.hasattr o = false →
      orderTermOf obj o = Except.error (DbError.validation
        ("Order field '" ++ o ++ "' not found"))) ∧
    (∀ ts, order_by_terms names obj = Except.ok ts →
      ts.length = names.length ∧
      List.Forall₂ (fun o t => orderTermOf obj o = Except.ok t) names ts) := by
  refine ⟨?_, ?_, ?_, ?_, ?_⟩
  · intro o hpre hattr
    simp [orderTermOf, hpre, hattr]
  · intro o hpre hattr
    simp [orderTermOf, hpre, hattr]
  · intro o hpre hattr
    simp [orderTermOf, hpre, hattr]
  · intro o hpre hattr
    simp [orderTermOf, hpre, hattr]
  · intro ts h
    have hf := order_terms_ok_forall obj names ts h
    exact ⟨hf.length_eq.symm, hf⟩

/-- Witness for C8 on the `Plant` entity: `["-name", "id"]` yields a
descending term on `name` then an ascending term on `id`, and an unknown
order field fails with the stated `ValidationError`. -/
theorem order_by_spec_witness :
    orderTermOf Plant "-name" = Except.ok (OrderTerm.desc "name") ∧
    orderTermOf Plant "id" = Except.ok (OrderTerm.asc "id") ∧
    orderTermOf Plant "-height" = Except.error (DbError.validation
      "Order field 'height' not found") ∧
    orderTermOf Plant "height" = Except.error (DbError.validation
      "Order field 'height' not found") ∧
    order_by_terms ["-name", "id"] Plant =
      Except.ok [OrderTerm.desc "name", OrderTerm.asc "id"] := by
  have h := order_by_spec Plant ["-name", "id"]
  refine ⟨?_, h.2.1 "id" (by decide) (by decide), ?_, ?_, by rfl⟩
  · have := h.1 "-name" (by decide) (by decide)
    simpa using this
  · have := h.2.2.1 "-height" (by decide) (by decide)
    simpa using this
  · have := h.2.2.2.1 "height" (by decide) (by decide)
    simpa using this

/-- C6: for every id absent from the store, both `update` and `delete` fail
with `NotFoundError` (status 404); for every id present, `delete` removes
the instance from the visible rows, marks it for deletion and returns
`True`. -/
theorem delete_update_by_id_spec (s : SessionState) (obj : Entity)
    (id : Value) (vals : Payload) :
    (sessionGet s obj id = none →
      delete s obj id =
        Except.error (Exc.db (DbError.notFound (obj.name ++ " not found"))) ∧
      update s obj id vals =
        Except.error (Exc.db (DbError.notFound (obj.name ++ " not found"))) ∧
      (DbError.notFound (obj.name ++ " not found")).statusCode = 404) ∧
    (∀ x, sessionGet s obj id = some x →
      ∃ s2, delete s obj id = Except.ok (s2, true) ∧
        x ∈ s2.deleted ∧
        s2.rows = s.rows.filter (fun r => r ≠ x) ∧
        s2.deleted = s.deleted ++ [x]) := by
  constructor
  · intro h
    refine ⟨?_, ?_, rfl⟩
    · simp [delete, delete_inner, db_error, h]
    · simp [update, update_inner, db_error, h]
  · intro x h
    let s1 := { s with rows := s.rows.filter (fun r => r ≠ x) }
    refine ⟨{ s1 with deleted := s1.deleted ++ [x] }, ?_, ?_, rfl, rfl⟩
    · simp [delete, delete_inner, db_error, h, s1]
    · simp

/-- The one-row session of the C6 witness. -/
def wRow1 : Instance := Plant.mkInst [("id", Value.int 1)]

/-- A session holding exactly `wRow1`. -/
def wSession1 : SessionState := { rows := [wRow1], deleted := [], nextId := 2 }

/-- Witness for C6: a one-row store; id 2 is absent and fails with 404 on
both operations, id 1 is present and `delete` marks it and returns `True`. -/
theorem delete_update_by_id_spec_witness :
    (delete wSession1 Plant (Value.int 2) =
      Except.error (Exc.db (DbError.notFound "Plant not found")) ∧
     update wSession1 Plant (Value.int 2) { setFields := [] } =
      Except.error (Exc.db (DbError.notFound "Plant not found")) ∧
     (DbError.notFound "Plant not found").statusCode = 404) ∧
    (∃ s2, delete wSession1 Plant (Value.int 1) = Except.ok (s2, true) ∧
      wRow1 ∈ s2.deleted ∧
      s2.rows = wSession1.rows.filter (fun r => r ≠ wRow1) ∧
      s2.deleted = wSession1.deleted ++ [wRow1]) := by
  have h := delete_update_by_id_spec wSession1 Plant (Value.int 2)
    { setFields := [] }
  have h2 := delete_update_by_id_spec wSession1 Plant (Value.int 1)
    { setFields := [] }
  exact ⟨h.1 (by decide), h2.2 wRow1 (by decide)⟩

/-- C9: when its lookup misses, `get_or_convert` returns the transient
instance built from `new_values` with the session unchanged — nothing is
persisted, and the same lookup on the session it returns still misses. -/
theorem get_or_convert_transient (s : SessionState) (obj : Entity)
    (vals filters : List (String × Value)) (res : GetRes)
    (hguard : filters.any (fun p => isNoneOrEmpty p.2) = false)
    (hlook : lookupByFilters s obj filters = Except.ok res)
    (hmiss : res.isTruthy = false) :
    get_or_convert s obj vals filters =
      Except.ok (s, some (obj.mkInst vals)) ∧
    (∀ s2 r2, get_or_convert s obj vals filters = Except.ok (s2, r2) →
      s2 = s ∧ lookupByFilters s2 obj filters = Except.ok res ∧
      res.isTruthy = false) := by
  have h1 : get_or_convert s obj vals filters =
      Except.ok (s, some (obj.mkInst vals)) := by
    simp [get_or_convert, hguard, hlook, hmiss]
  refine ⟨h1, ?_⟩
  intro s2 r2 h2
  rw [h1] at h2
  cases h2
  exact ⟨rfl, hlook, hmiss⟩

/-- The empty session of the C9 witness. -/
def wEmptySession : SessionState := { rows := [], deleted := [], nextId := 1 }

/-- The creation values of the C9 witness. -/
def wFernVals : List (String × Value) :=
  [("name", Value.str "Fern"), ("species", Value.str "Fern sp.")]

/-- Witness for C9: on an empty store, looking up `name == "Fern"` misses,
`get_or_convert` returns the transient Fern instance, the session is
unchanged and the lookup still misses. -/
theorem get_or_convert_transient_witness :
    get_or_convert wEmptySession Plant wFernVals
        [("name", Value.str "Fern")] =
      Except.ok (wEmptySession, some (Plant.mkInst wFernVals)) ∧
    (∀ s2 r2, get_or_convert wEmptySession Plant wFernVals
        [("name", Value.str "Fern")] = Except.ok (s2, r2) →
      s2 = wEmptySession ∧
      lookupByFilters s2 Plant [("name", Value.str "Fern")] =
        Except.ok (GetRes.oneOrNone none) ∧
      (GetRes.oneOrNone none).isTruthy = false) := by
  exact get_or_convert_transient wEmptySession Plant wFernVals
    [("name", Value.str "Fern")] (GetRes.oneOrNone none)
    (by decide) (by rfl) (by decide)

/-! Lookup lemmas for the dict operations, used to settle the partial-merge
semantics of `update`. -/

/-- Lookup across an append: the left dict wins when it has the key. -/
theorem dictGet_append (d1 d2 : List (String × Value)) (k : String) :
    dictGet (d1 ++ d2) k =
      if (dictGet d1 k).isSome then dictGet d1 k else dictGet d2 k := by
  induction d1 with
  | nil => simp [dictGet]
  | cons p d1 ih =>
    by_cases hp : p.1 = k
    · simp [dictGet, hp]
    · simpa [dictGet, hp] using ih

/-- Lookup after the in-place overwrite `dictSet` performs on a present
key. -/
theorem dictGet_replaceMap (d : List (String × Value)) (k : String)
    (v : Value) (k2 : String) :
    dictGet (d.map (fun p => if p.1 = k then (k, v) else p)) k2 =
      if k2 = k then (if (dictGet d k).isSome then some v else none)
      else dictGet d k2 := by
  induction d with
  | nil => simp [dictGet]
  | cons p d ih =>
    simp only [List.map_cons]
    by_cases hp : p.1 = k
    · rw [if_pos hp]
      by_cases hk2 : k2 = k
      · subst hk2
        simp [dictGet, hp]
      · have hkk2 : ¬ k = k2 := fun h => hk2 h.symm
        have hpk2 : ¬ p.1 = k2 := fun h => hk2 (hp.symm.trans h).symm
        simp only [dictGet, if_neg hkk2, if_neg hk2, if_neg hpk2, ih]
    · rw [if_neg hp]
      by_cases hpk2 : p.1 = k2
      · have hk2 : ¬ k2 = k := fun h => hp (h ▸ hpk2)
        simp [dictGet, hpk2, hk2]
      · simp [dictGet, hpk2, hp, ih]

/-- Lookup after a dict item assignment. -/
theorem dictGet_dictSet (d : List (String × Value)) (k : String) (v : Value)
    (k2 : String) :
    dictGet (dictSet d k v) k2 = if k2 = k then some v else dictGet d k2 := by
  by_cases hpres : (dictGet d k).isSome
  · rw [dictSet, if_pos hpres, dictGet_replaceMap]
    by_cases hk2 : k2 = k <;> simp [hk2, hpres]
  · rw [dictSet, if_neg hpres, dictGet_append]
    by_cases hk2 : k2 = k
    · subst hk2
      simp only [Option.not_isSome_iff_eq_none] at hpres
      simp [hpres, dictGet]
    · have hkk2 : ¬ k = k2 := fun h => hk2 h.symm
      by_cases h2 : (dictGet d k2).isSome
      · simp [h2, hk2]
      · simp only [Option.not_isSome_iff_eq_none] at h2
        simp [h2, dictGet, hk2, hkk2]

/-- A dict has no entry for a key exactly when the key is not among its
keys. -/
theorem dictGet_eq_none_iff (d : List (String × Value)) (k : String) :
    dictGet d k = none ↔ k ∉ d.map Prod.fst := by
  induction d with
  | nil => simp [dictGet]
  | cons p d ih =>
    simp only [List.map_cons, List.mem_cons, not_or]
    by_cases hp : p.1 = k
    · subst hp
      simp [dictGet]
    · have hkp : ¬ k = p.1 := fun h => hp h.symm
      simp [dictGet, hp, hkp, ih]

/-- Lookup through `dict.update`, when the updating dict has unique keys:
its entries win, anything else falls back to the original. -/
theorem dictGet_dictUpdate (u : List (String × Value)) :
    ∀ d k, (u.map Prod.fst).Nodup →
      dictGet (dictUpdate d u) k =
        if (dictGet u k).isSome then dictGet u k else dictGet d k := by
  induction u with
  | nil => intro d k _; simp [dictUpdate, dictGet]
  | cons p u ih =>
    intro d k hu
    obtain ⟨k1, v1⟩ := p
    simp only [List.map_cons, List.nodup_cons] at hu
    have step : dictUpdate d ((k1, v1) :: u) =
        dictUpdate (dictSet d k1 v1) u := rfl
    rw [step, ih (dictSet d k1 v1) k hu.2]
    by_cases hk : k = k1
    · subst hk
      have hnone : dictGet u k = none :=
        (dictGet_eq_none_iff u k).mpr hu.1
      simp [hnone, dictGet, dictGet_dictSet]
    · have hk1k : ¬ k1 = k := fun h => hk h.symm
      simp [dictGet, hk1k, dictGet_dictSet, hk]

/-- Lookup after `del d[k]`. -/
theorem dictGet_dictDelete (d : List (String × Value)) (k k2 : String) :
    dictGet (dictDelete d k) k2 =
      if k2 = k then none else dictGet d k2 := by
  induction d with
  | nil => simp [dictDelete, dictGet]
  | cons p d ih =>
    simp only [dictDelete, ne_eq, decide_not] at ih ⊢
    rw [List.filter_cons]
    by_cases hp : p.1 = k
    · rw [if_neg (by simp [hp])]
      by_cases hk2 : k2 = k
      · rw [ih, if_pos hk2, if_pos hk2]
      · rw [ih, if_neg hk2, if_neg hk2]
        have hpk2 : ¬ p.1 = k2 := fun h => hk2 (hp.symm.trans h).symm
        simp [dictGet, hpk2]
    · rw [if_pos (by simp [hp])]
      by_cases hpk2 : p.1 = k2
      · have hk2 : ¬ k2 = k := fun h => hp (h ▸ hpk2)
        simp [dictGet, hpk2, hk2]
      · simp [dictGet, hpk2, ih]

/-- `dictSet` keeps the keys unique. -/
theorem keys_dictSet_nodup (d : List (String × Value)) (k : String)
    (v : Value) (hd : (d.map Prod.fst).Nodup) :
    ((dictSet d k v).map Prod.fst).Nodup := by
  by_cases hpres : (dictGet d k).isSome
  · rw [dictSet, if_pos hpres]
    have hkeys : (d.map (fun p => if p.1 = k then (k, v) else p)).map Prod.fst
        = d.map Prod.fst := by
      rw [List.map_map]
      refine List.map_congr_left ?_
      intro p _
      by_cases hp : p.1 = k <;> simp [hp]
    rw [hkeys]; exact hd
  · rw [dictSet, if_neg hpres]
    rw [List.map_append]
    simp only [List.map_cons, List.map_nil]
    refine hd.append (List.nodup_singleton k) ?_
    rw [List.disjoint_singleton]
    simp only [Option.not_isSome_iff_eq_none] at hpres
    exact (dictGet_eq_none_iff d k).mp hpres

/-- `dict.update` keeps the keys of the target unique. -/
theorem keys_dictUpdate_nodup (u : List (String × Value)) :
    ∀ d, (d.map Prod.fst).Nodup → ((dictUpdate d u).map Prod.fst).Nodup := by
  induction u with
  | nil => intro d hd; exact hd
  | cons p u ih =>
    intro d hd
    exact ih (dictSet d p.1 p.2) (keys_dictSet_nodup d p.1 p.2 hd)

/-- `del` keeps the keys unique. -/
theorem keys_dictDelete_nodup (d : List (String × Value)) (k : String)
    (hd : (d.map Prod.fst).Nodup) :
    ((dictDelete d k).map Prod.fst).Nodup :=
  hd.sublist ((List.filter_sublist d).map Prod.fst)

/-- The `setattr` write-back loop of `update` leaves the entity name alone
and performs exactly a `dict.update` of the fields. -/
theorem setFold_spec (l : List (String × Value)) :
    ∀ inst : Instance,
      (l.foldl (fun acc p => acc.setField p.1 p.2) inst).entity =
        inst.entity ∧
      (l.foldl (fun acc p => acc.setField p.1 p.2) inst).fields =
        dictUpdate inst.fields l := by
  induction l with
  | nil => intro inst; exact ⟨rfl, rfl⟩
  | cons p l ih =>
    intro inst
    have h := ih (inst.setField p.1 p.2)
    exact ⟨h.1, h.2⟩

/-- C3: for every persisted instance found by id, `update` changes exactly
the fields explicitly set in the partial payload: every other field keeps
its prior value, the `id` field keeps its prior value even when the payload
sets it, only the found row changes in the store, and nothing is marked for
deletion. -/
theorem update_partial_merge (s : SessionState) (obj : Entity) (id : Value)
    (vals : Payload) (db_result : Instance)
    (hget : sessionGet s obj id = some db_result)
    (hdb : (db_result.fields.map Prod.fst).Nodup)
    (hvals : (vals.setFields.map Prod.fst).Nodup) :
    ∃ s2 r, update s obj id vals = Except.ok (s2, r) ∧
      r.entity = db_result.entity ∧
      r.getField "id" = db_result.getField "id" ∧
      (∀ f, f ≠ "id" →
        r.getField f = if (dictGet vals.setFields f).isSome
          then dictGet vals.setFields f else db_result.getField f) ∧
      s2.rows = s.rows.map (fun row => if row = db_result then r else row) ∧
      s2.deleted = s.deleted := by
  have hmergedNodup :
      ((dictDelete (dictUpdate db_result.fields vals.setFields) "id").map
        Prod.fst).Nodup :=
    keys_dictDelete_nodup _ _
      (keys_dictUpdate_nodup vals.setFields db_result.fields hdb)
  set merged := dictDelete (dictUpdate db_result.fields vals.setFields) "id"
    with hmerged
  set r := merged.foldl (fun (acc : Instance) p => acc.setField p.1 p.2)
    db_result with hr
  have hrfold := setFold_spec merged db_result
  refine ⟨{ s with rows := s.rows.map (fun row => if row = db_result then r else row) }, r, ?_, hrfold.1, ?_, ?_, rfl, rfl⟩
  · simp only [update, update_inner, hget, db_error]
  · show dictGet r.fields "id" = dictGet db_result.fields "id"
    rw [hrfold.2, dictGet_dictUpdate merged db_result.fields "id" hmergedNodup,
      hmerged, dictGet_dictDelete]
    simp
  · intro f hf
    show dictGet r.fields f = _
    rw [hrfold.2, dictGet_dictUpdate merged db_result.fields f hmergedNodup,
      hmerged, dictGet_dictDelete, if_neg hf,
      dictGet_dictUpdate vals.setFields db_result.fields f hvals]
    by_cases hvf : (dictGet vals.setFields f).isSome <;>
      simp [hvf, Instance.getField]

/-- The stored row of the C3 witness. -/
def wDbRow : Instance :=
  { entity := "Plant", fields := [("id", Value.int 1), ("name", Value.str "Fern"), ("species", Value.str "Old")] }

/-- A session holding exactly `wDbRow`. -/
def wUpdSession : SessionState := { rows := [wDbRow], deleted := [], nextId := 2 }

/-- A partial payload setting only the `species` field. -/
def wUpdPayload : Payload := { setFields := [("species", Value.str "Fern sp.")] }

/-- Witness for C3: updating only `species` of the stored Fern row keeps
`id` and `name`, replaces the one row, marks nothing for deletion. -/
theorem update_partial_merge_witness :
    ∃ s2 r, update wUpdSession Plant (Value.int 1) wUpdPayload =
        Except.ok (s2, r) ∧
      r.entity = wDbRow.entity ∧
      r.getField "id" = wDbRow.getField "id" ∧
      (∀ f, f ≠ "id" →
        r.getField f = if (dictGet wUpdPayload.setFields f).isSome
          then dictGet wUpdPayload.setFields f else wDbRow.getField f) ∧
      s2.rows = wUpdSession.rows.map (fun row => if row = wDbRow then r else row) ∧
      s2.deleted = wUpdSession.deleted :=
  update_partial_merge wUpdSession Plant (Value.int 1) wUpdPayload wDbRow
    (by decide) (by decide) (by decide)

/-- `saveFlush` flushes one instance per registered instance. -/
theorem saveFlush_length (objs : List Instance) :
    ∀ n acc, (objs.foldl
      (fun (acc : Nat × List Instance) obj =>
        let ni := flushInst acc.1 obj
        (ni.1, acc.2 ++ [ni.2])) (n, acc)).2.length =
      acc.length + objs.length := by
  induction objs with
  | nil => intro n acc; simp
  | cons x objs ih =>
    intro n acc
    rw [List.foldl_cons]
    rw [ih]
    simp
    omega

/-- C1 counterexample: `save` on a one-element list returns a single
instance, not a list, and `save` on the empty list fails with the wrapped
index error instead of returning the list. -/
theorem save_shape_counterexample :
    (save wEmptySession (SaveArg.list [wRow1])).map
      (fun p => p.2.isList) = Except.ok false ∧
    save wEmptySession (SaveArg.list []) =
      Except.error
        (Exc.db (DbError.database "list index out of range" 500)) := by
  constructor <;> rfl

/-- C1 amended: `save` returns a single instance for a single-instance
input; it returns a list (of the same length) only for list inputs of more
than one element; a one-element list collapses to its single flushed
element; and the empty list fails with a `DatabaseError` wrapping the
`IndexError`. -/
theorem save_shape_amended (s : SessionState) (arg : SaveArg) :
    (∀ a, arg = SaveArg.single a →
      ∃ s2 r, save s arg = Except.ok (s2, SaveArg.single r)) ∧
    (∀ xs, arg = SaveArg.list xs → 1 < xs.length →
      ∃ s2 rs, save s arg = Except.ok (s2, SaveArg.list rs) ∧
        rs.length = xs.length) ∧
    (∀ x, arg = SaveArg.list [x] →
      ∃ s2 r, save s arg = Except.ok (s2, SaveArg.single r)) ∧
    (arg = SaveArg.list [] →
      save s arg = Except.error
        (Exc.db (DbError.database "list index out of range" 500))) := by
  refine ⟨?_, ?_, ?_, ?_⟩
  · intro a ha
    subst ha
    exact ⟨_, _, rfl⟩
  · intro xs ha hlen
    subst ha
    cases xs with
    | nil => simp at hlen
    | cons x xs2 =>
      have hflen : (saveFlush s.nextId (x :: xs2)).2.length =
          (x :: xs2).length := by
        rw [saveFlush, saveFlush_length]
        simp
      have hcond : (saveFlush s.nextId (x :: xs2)).2.length > 1 := by
        rw [hflen]; exact hlen
      refine ⟨{ s with rows := s.rows ++ (saveFlush s.nextId (x :: xs2)).2, nextId := (saveFlush s.nextId (x :: xs2)).1 }, (saveFlush s.nextId (x :: xs2)).2, ?_, hflen⟩
      simp only [save, save_inner]
      rw [if_pos hcond]
      rfl
  · intro x ha
    subst ha
    exact ⟨_, _, rfl⟩
  · intro ha
    subst ha
    rfl

/-- Witness for C1 amended, on concrete inputs of each shape. -/
theorem save_shape_amended_witness :
    (∃ s2 r, save wEmptySession (SaveArg.single wRow1) =
      Except.ok (s2, SaveArg.single r)) ∧
    (∃ s2 rs, save wEmptySession (SaveArg.list [wRow1, wRow1]) =
      Except.ok (s2, SaveArg.list rs) ∧ rs.length = [wRow1, wRow1].length) ∧
    (∃ s2 r, save wEmptySession (SaveArg.list [wRow1]) =
      Except.ok (s2, SaveArg.single r)) ∧
    save wEmptySession (SaveArg.list []) =
      Except.error
        (Exc.db (DbError.database "list index out of range" 500)) := by
  refine ⟨(save_shape_amended wEmptySession (SaveArg.single wRow1)).1
      wRow1 rfl,
    (save_shape_amended wEmptySession (SaveArg.list [wRow1, wRow1])).2.1
      [wRow1, wRow1] rfl (by decide),
    (save_shape_amended wEmptySession (SaveArg.list [wRow1])).2.2.1
      wRow1 rfl,
    (save_shape_amended wEmptySession (SaveArg.list [])).2.2.2 rfl⟩

end DbUtils
